import Mathlib

/-!
Verification of the shofar voice-input pipeline: a shallow embedding of the
model store (`internal/models`), the recognizer factory (`internal/speech`),
the audio recorder (`internal/audio`), the LLM correction stage
(`internal/llm`) and the capture-session orchestration (`internal/app`),
with theorems settling the specified properties.

File-system effects, HTTP transfers and engine initialisation are modelled
through explicit state values and oracle parameters; every definition
follows the corresponding Go function line by line.
-/

namespace Shofar

/-- A filesystem path, as a list of name components. -/
abbrev Path := List String

/-- A filesystem entry: a regular file with its byte size, or a directory. -/
inductive FsEntry
  | file (size : Int)
  | dir
deriving DecidableEq

/-- Abstract filesystem state: maps a path to its entry, if any. -/
def Fs : Type := Path → Option FsEntry

/-- The empty filesystem. -/
def Fs.empty : Fs := fun _ => none

/-- Write (create or overwrite) an entry at a path. -/
def Fs.set (fs : Fs) (p : Path) (e : FsEntry) : Fs :=
  fun q => if q = p then some e else fs q

/-- Go `models.Engine`: the recognition/correction engine kind. -/
inductive Engine
  | whisper
  | vosk
  | llm
deriving DecidableEq

/-- Go `models.ModelInfo`: one entry of the static model catalogue. -/
structure ModelInfo where
  id : String
  engine : Engine
  name : String
  filename : String
  url : String
  size : Int
  isZip : Bool
deriving DecidableEq

/-- Go `models.Registry`: all available models (transcribed from registry.go). -/
def Registry : List ModelInfo :=
  [ { id := "whisper-tiny-q5", engine := .whisper, name := "Tiny Q5",
      filename := "ggml-tiny-q5_1.bin",
      url := "https://huggingface.co/ggerganov/whisper.cpp/resolve/main/ggml-tiny-q5_1.bin",
      size := 32 * 1024 * 1024, isZip := false },
    { id := "whisper-base-q5", engine := .whisper, name := "Base Q5",
      filename := "ggml-base-q5_1.bin",
      url := "https://huggingface.co/ggerganov/whisper.cpp/resolve/main/ggml-base-q5_1.bin",
      size := 60 * 1024 * 1024, isZip := false },
    { id := "whisper-small-q5", engine := .whisper, name := "Small Q5",
      filename := "ggml-small-q5_1.bin",
      url := "https://huggingface.co/ggerganov/whisper.cpp/resolve/main/ggml-small-q5_1.bin",
      size := 190 * 1024 * 1024, isZip := false },
    { id := "whisper-turbo", engine := .whisper, name := "Large v3 Turbo",
      filename := "ggml-large-v3-turbo-q5_0.bin",
      url := "https://huggingface.co/ggerganov/whisper.cpp/resolve/main/ggml-large-v3-turbo-q5_0.bin",
      size := 574 * 1024 * 1024, isZip := false },
    { id := "whisper-tiny", engine := .whisper, name := "Tiny",
      filename := "ggml-tiny.bin",
      url := "https://huggingface.co/ggerganov/whisper.cpp/resolve/main/ggml-tiny.bin",
      size := 75 * 1024 * 1024, isZip := false },
    { id := "whisper-base", engine := .whisper, name := "Base",
      filename := "ggml-base.bin",
      url := "https://huggingface.co/ggerganov/whisper.cpp/resolve/main/ggml-base.bin",
      size := 142 * 1024 * 1024, isZip := false },
    { id := "whisper-small", engine := .whisper, name := "Small",
      filename := "ggml-small.bin",
      url := "https://huggingface.co/ggerganov/whisper.cpp/resolve/main/ggml-small.bin",
      size := 466 * 1024 * 1024, isZip := false },
    { id := "vosk-ru-small", engine := .vosk, name := "Russian Small",
      filename := "vosk-model-small-ru-0.22",
      url := "https://alphacephei.com/vosk/models/vosk-model-small-ru-0.22.zip",
      size := 45 * 1024 * 1024, isZip := true },
    { id := "vosk-ru", engine := .vosk, name := "Russian Large",
      filename := "vosk-model-ru-0.42",
      url := "https://alphacephei.com/vosk/models/vosk-model-ru-0.42.zip",
      size := 1800 * 1024 * 1024, isZip := true },
    { id := "llm-qwen2.5-0.5b", engine := .llm, name := "Qwen2.5 0.5B",
      filename := "qwen2.5-0.5b-instruct-q4_k_m.gguf",
      url := "https://huggingface.co/Qwen/Qwen2.5-0.5B-Instruct-GGUF/resolve/main/qwen2.5-0.5b-instruct-q4_k_m.gguf",
      size := 386 * 1024 * 1024, isZip := false },
    { id := "llm-qwen2.5-1.5b", engine := .llm, name := "Qwen2.5 1.5B",
      filename := "qwen2.5-1.5b-instruct-q4_k_m.gguf",
      url := "https://huggingface.co/Qwen/Qwen2.5-1.5B-Instruct-GGUF/resolve/main/qwen2.5-1.5b-instruct-q4_k_m.gguf",
      size := 987 * 1024 * 1024, isZip := false },
    { id := "llm-qwen2.5-3b", engine := .llm, name := "Qwen2.5 3B",
      filename := "qwen2.5-3b-instruct-q4_k_m.gguf",
      url := "https://huggingface.co/Qwen/Qwen2.5-3B-Instruct-GGUF/resolve/main/qwen2.5-3b-instruct-q4_k_m.gguf",
      size := 1900 * 1024 * 1024, isZip := false } ]

/-- Go `models.DefaultModelID`. -/
def DefaultModelID : String := "whisper-tiny-q5"

/-- Go `models.GetModel`: look a model up by id (the Go `(ModelInfo, bool)`
pair becomes an `Option`). -/
def GetModel (id : String) : Option ModelInfo :=
  Registry.find? (fun m => m.id = id)

/-- Go `models.Manager`: holds the models directory path.  The Go mutex only
serialises `Download`/`Delete`; the model here is the single-threaded
sequential semantics those locks enforce. -/
structure Manager where
  modelsDir : Path

/-- Go `Manager.GetModelPath`: full path of a model artifact.  The Go `default`
branch is unreachable because `Engine` is a closed enumeration here. -/
def Manager.GetModelPath (m : Manager) (info : ModelInfo) : Path :=
  match info.engine with
  | .whisper => m.modelsDir ++ ["whisper", info.filename]
  | .vosk => m.modelsDir ++ ["vosk", info.filename]
  | .llm => m.modelsDir ++ ["llm", info.filename]

/-- Go `Manager.IsDownloaded`: stat the final path; archive models must be a
directory, single-file models must be a non-empty file.  (A directory found
where a plain file is expected reports a platform-dependent `stat` size in
Go; it is modelled as not-downloaded.) -/
def Manager.IsDownloaded (m : Manager) (fs : Fs) (info : ModelInfo) : Bool :=
  match fs (m.GetModelPath info) with
  | none => false
  | some (.file sz) => if info.isZip then false else decide (0 < sz)
  | some .dir => info.isZip

/-- Go `models.Progress`: one progress update (the Go `Error` field is never
set on the paths modelled here, so it is omitted). -/
structure Progress where
  modelID : String
  downloaded : Int
  total : Int
  done : Bool
deriving DecidableEq

/-- How the HTTP response body ends: clean EOF, a read error, or
cancellation observed at a chunk boundary. -/
inductive BodyEnd
  | eof
  | readError
  | cancelled
deriving DecidableEq

/-- Oracle for one HTTP 200 response: the advertised `ContentLength`, the
sizes of the chunks successfully read before the body ends, and how it
ends. -/
structure HttpBody where
  contentLength : Int
  chunks : List Nat
  ending : BodyEnd
deriving DecidableEq

/-- Oracle for the network: request construction fails, a non-200 status
arrives, or a 200 response with the given body. -/
inductive NetResult
  | reqError
  | httpError (status : Nat)
  | ok (body : HttpBody)
deriving DecidableEq

/-- Typed download errors. -/
inductive DlErr
  | reqFailed
  | httpStatus (s : Nat)
  | readFailed
  | cancelledErr
  | unzipFailed
deriving DecidableEq

/-- Result of a download: outcome, final filesystem, progress updates
emitted to the sink, and whether a network transfer was performed. -/
structure DlResult where
  result : Except DlErr Unit
  fs : Fs
  progress : List Progress
  usedNetwork : Bool

/-- Go `total := resp.ContentLength; if total <= 0 then total = info.Size`. -/
def totalOf (contentLength infoSize : Int) : Int :=
  if contentLength ≤ 0 then infoSize else contentLength

/-- The streaming progress updates emitted by the chunk loop: after each
non-empty chunk, the running byte count is sent (best-effort in Go; the
full emitted sequence is modelled, a dropped update is a sublist of it). -/
def chunkProgress (id : String) (total : Int) : Int → List Nat → List Progress
  | _, [] => []
  | acc, n :: rest =>
    if n = 0 then chunkProgress id total acc rest
    else
      { modelID := id, downloaded := acc + n, total := total, done := false }
        :: chunkProgress id total (acc + n) rest

/-- Go `Manager.downloadFile`: stream to `dest + ".tmp"`, rename into place
only on full success, emit a final 100% update.  Every failure path removes
the temporary file (the deferred remove), so the filesystem is returned
unchanged on failure. -/
def Manager.downloadFile (m : Manager) (fs : Fs) (info : ModelInfo)
    (net : NetResult) : DlResult :=
  let destPath := m.GetModelPath info
  match net with
  | .reqError => ⟨.error .reqFailed, fs, [], true⟩
  | .httpError s => ⟨.error (.httpStatus s), fs, [], true⟩
  | .ok body =>
    let total := totalOf body.contentLength info.size
    let ps := chunkProgress info.id total 0 body.chunks
    match body.ending with
    | .readError => ⟨.error .readFailed, fs, ps, true⟩
    | .cancelled => ⟨.error .cancelledErr, fs, ps, true⟩
    | .eof =>
      let written : Int := (body.chunks.sum : Int)
      ⟨.ok (), fs.set destPath (.file written),
        ps ++ [{ modelID := info.id, downloaded := total, total := total,
                 done := true }], true⟩

/-- One zip entry: path components relative to the extraction root, whether
it is a directory entry, and the uncompressed size for files. -/
structure ZipEntry where
  name : Path
  isDir : Bool
  size : Int
deriving DecidableEq

/-- Go `os.MkdirAll`: create the path and every missing ancestor as
directories (existing entries are left alone). -/
def mkdirAll (fs : Fs) (p : Path) : Fs :=
  p.inits.foldl
    (fun acc q => if q = [] then acc
      else match acc q with
        | none => acc.set q .dir
        | some _ => acc) fs

/-- Go `unzip`, entry by entry.  A directory entry runs `os.MkdirAll` and its
error is discarded (`continue`).  A file entry first runs `os.MkdirAll` on
its parent, then opens and copies the file; the Bool oracle marks a file
entry whose open fails, which aborts extraction after the `MkdirAll` side
effect has already happened.  Returns (success, resulting filesystem). -/
def unzipRun (base : Path) : Fs → List (ZipEntry × Bool) → Bool × Fs
  | fs, [] => (true, fs)
  | fs, (e, failHere) :: rest =>
    let fpath := base ++ e.name
    if e.isDir then unzipRun base (mkdirAll fs fpath) rest
    else if failHere then (false, mkdirAll fs fpath.dropLast)
    else unzipRun base ((mkdirAll fs fpath.dropLast).set fpath (.file e.size)) rest

/-- Go `Manager.downloadAndUnzip`: stream the archive to a system temp file
(outside the models tree, so not tracked here), then unpack it with
`unzip(tmpPath, parentDir)` directly into the parent of the final
directory; the final 100% update is emitted only after extraction
succeeds. -/
def Manager.downloadAndUnzip (m : Manager) (fs : Fs) (info : ModelInfo)
    (net : NetResult) (entries : List (ZipEntry × Bool)) : DlResult :=
  let destDir := m.GetModelPath info
  let parentDir := destDir.dropLast
  match net with
  | .reqError => ⟨.error .reqFailed, fs, [], true⟩
  | .httpError s => ⟨.error (.httpStatus s), fs, [], true⟩
  | .ok body =>
    let total := totalOf body.contentLength info.size
    let ps := chunkProgress info.id total 0 body.chunks
    match body.ending with
    | .readError => ⟨.error .readFailed, fs, ps, true⟩
    | .cancelled => ⟨.error .cancelledErr, fs, ps, true⟩
    | .eof =>
      match unzipRun parentDir fs entries with
      | (false, fs1) => ⟨.error .unzipFailed, fs1, ps, true⟩
      | (true, fs1) =>
        ⟨.ok (), fs1,
          ps ++ [{ modelID := info.id, downloaded := total, total := total,
                   done := true }], true⟩

/-- Go `Manager.Download`: if the model is already on disk, report a single
100% / Done update and return success without touching the network;
otherwise dispatch on the archive flag. -/
def Manager.Download (m : Manager) (fs : Fs) (info : ModelInfo)
    (net : NetResult) (entries : List (ZipEntry × Bool)) : DlResult :=
  if m.IsDownloaded fs info then
    ⟨.ok (), fs,
      [{ modelID := info.id, downloaded := info.size, total := info.size,
         done := true }], false⟩
  else if info.isZip then m.downloadAndUnzip fs info net entries
  else m.downloadFile fs info net

/-- Go `audio.SampleRate` (16 kHz, Whisper requirement). -/
def SampleRate : Nat := 16000

/-- Go `audio.MinSamples = SampleRate / 5` (3200 samples = 200 ms). -/
def MinSamples : Nat := SampleRate / 5

/-- Go `audio.Recorder` state.  Sample values are modelled as integers: `Stop`
and `Start` only move, append and zero-fill them, never compute with them.
`stream` is the opened portaudio stream id, if any. -/
structure Recorder where
  running : Bool
  stream : Option Nat
  samples : List Int

/-- Go `Recorder.Start`: a no-op success when already recording; otherwise
reset the sample buffer, open the default stream (`openRes` oracle) and
start it (`startRes` oracle).  On a failed `stream.Start()` the stream is
closed and `running` reset, but the `stream` field is left pointing at the
closed stream, as in the source. -/
def Recorder.Start (r : Recorder) (openRes : Except String Nat)
    (startRes : Except String Unit) : Except String Unit × Recorder :=
  if r.running then (.ok (), r)
  else
    let r1 : Recorder := { r with samples := [] }
    match openRes with
    | .error e => (.error e, r1)
    | .ok sid =>
      let r2 : Recorder := { r1 with stream := some sid, running := true }
      match startRes with
      | .error e => (.error e, { r2 with running := false })
      | .ok _ => (.ok (), r2)

/-- Go `Recorder.Stop`: returns nil (here `[]`) when not recording; otherwise
takes the accumulated samples, stops and closes the stream, and pads the
buffer with trailing zeros up to `MinSamples` when it is shorter. -/
def Recorder.Stop (r : Recorder) : Recorder × List Int :=
  if r.running then
    let samples := r.samples
    let r1 : Recorder := { running := false, stream := none, samples := [] }
    let padded :=
      if samples.length < MinSamples then
        samples ++ List.replicate (MinSamples - samples.length) 0
      else samples
    (r1, padded)
  else (r, [])

/-- Go `Recorder.IsRecording`. -/
def Recorder.IsRecording (r : Recorder) : Bool := r.running

/-- An abstract recognizer handle (`speech.Recognizer`). -/
abbrev Recognizer := Nat

/-- Go `speech.Factory` errors, in the order the Go code checks them. -/
inductive CreateErr
  | modelNotFound
  | modelNotDownloaded
  | unknownEngine
  | engineInitFailed
deriving DecidableEq

/-- Go `speech.Factory` published state: the current recognizer (if any) and
the current model id. -/
structure Factory where
  current : Option Recognizer
  modelID : String
deriving DecidableEq

/-- Go `Factory.Create`: validate the model id against the registry, require
the artifact on disk, then construct the engine implied by the descriptor.
`initWhisper` / `initVosk` are oracles for `NewWhisperFromFile` / `NewVosk`
applied to the model path; the `EngineLLM` kind falls into the Go `default`
branch (unknown engine). -/
def Factory.Create (manager : Manager) (fs : Fs)
    (initWhisper initVosk : Path → Except String Recognizer)
    (modelID : String) : Except CreateErr Recognizer :=
  match GetModel modelID with
  | none => .error .modelNotFound
  | some info =>
    let modelPath := manager.GetModelPath info
    if ¬ manager.IsDownloaded fs info then .error .modelNotDownloaded
    else
      match info.engine with
      | .whisper =>
        match initWhisper modelPath with
        | .error _ => .error .engineInitFailed
        | .ok rec => .ok rec
      | .vosk =>
        match initVosk modelPath with
        | .error _ => .error .engineInitFailed
        | .ok rec => .ok rec
      | .llm => .error .unknownEngine

/-- Go `Factory.Swap`: construct the replacement first; on any construction
error return it with the factory untouched.  On success publish the new
recognizer and model id under the lock and hand the old handle to a
background `Close` (returned as the third component). -/
def Factory.Swap (f : Factory) (manager : Manager) (fs : Fs)
    (initWhisper initVosk : Path → Except String Recognizer)
    (modelID : String) :
    Except CreateErr Unit × Factory × Option Recognizer :=
  match Factory.Create manager fs initWhisper initVosk modelID with
  | .error e => (.error e, f, none)
  | .ok rec => (.ok (), { current := some rec, modelID := modelID }, f.current)

/-- Go `Factory.Current`: lock-protected snapshot read. -/
def Factory.Current (f : Factory) : Option Recognizer := f.current

/-- Go `Factory.IsLoaded`. -/
def Factory.IsLoaded (f : Factory) : Bool := f.current.isSome

/-- One observable state of the registry during a swap, for the
interleaving analysis: the published handle, the set of fully constructed
handles, and the set of disposed handles. -/
structure RegState where
  current : Option Recognizer
  constructed : List Recognizer
  closed : List Recognizer
deriving DecidableEq

/-- The atomic steps of `Factory.Swap` replacing `old` by `new`, as the
sequence of states visible to a concurrent `Current()` reader (reads are
snapshots under the same mutex, so they land between steps): initial state,
after `Create` returns the fully built handle, after publication under the
lock, and after the background `Close` of the old handle finishes. -/
def swapStates (old new : Recognizer) : List RegState :=
  [ { current := some old, constructed := [old], closed := [] },
    { current := some old, constructed := [new, old], closed := [] },
    { current := some new, constructed := [new, old], closed := [] },
    { current := some new, constructed := [new, old], closed := [old] } ]

/-- Operations on one native handle; `Transcribe` and `Close` both take the
own mutex of the handle, so concurrent calls serialise into a sequence. -/
inductive HandleOp
  | transcribe
  | close
deriving DecidableEq

/-- Run a serialised sequence of handle operations starting from the given
freed flag; each `transcribe` yields `some ()` when the handle is still
live and `none` when it was already freed. -/
def runHandleOps : List HandleOp → Bool → List (Option Unit)
  | [], _ => []
  | .transcribe :: rest, freed =>
    (if freed then none else some ()) :: runHandleOps rest freed
  | .close :: rest, _ => runHandleOps rest true

/-- Go `strings.TrimSpace`: drop leading and trailing whitespace.  Written
as a structural function on the character list so that concrete instances
evaluate inside proofs. -/
def trimSpace (s : String) : String :=
  ⟨((s.data.dropWhile Char.isWhitespace).reverse.dropWhile
      Char.isWhitespace).reverse⟩

/-- Post-processing of `LlamaModel.CorrectText` output: trim, cut at the
first end-of-turn tag, trim. -/
def cleanGenerated (r : String) : String :=
  let c := trimSpace r
  trimSpace ((c.splitOn "<|im_end|>").headD c)

/-- Go `LlamaModel.CorrectText`: blank input is returned as is; a context
already done at the check point returns the original text with the context
error; a failed `Generate` returns the original text with a wrapped error;
otherwise the cleaned generation is returned.  (`ctxDone` is the value the
`select` on `ctx.Done()` observes; `genRes` is the `Generate` outcome.) -/
def CorrectText (ctxDone : Bool) (genRes : Except String String)
    (text : String) : String × Option String :=
  if trimSpace text = "" then (text, none)
  else if ctxDone then (text, some "context deadline exceeded")
  else
    match genRes with
    | .error e => (text, some ("llm generate: " ++ e))
    | .ok r => (cleanGenerated r, none)

/-- Go `app.MinRecordingDuration` in milliseconds. -/
def minRecordingMs : Nat := 500

/-- Observable side effects of `App.stopRecording`, in emission order. -/
inductive Effect
  | windowSpeech
  | windowLLM
  | windowHide
  | trayIdle
  | trayProcessing
  | notifyProcessing
  | notifyError
  | notifyEmpty
  | engineInvoke
  | correctInvoke
  | setResult (orig corrected : String)
deriving DecidableEq

/-- The `App` fields `stopRecording` reads and writes: the recorder, the
`processing` guard, the elapsed recording time (ms), the snapshot of the
current recognizer, and the correction configuration. -/
structure AppState where
  recorder : Recorder
  processing : Bool
  elapsedMs : Nat
  recognizer : Option Recognizer
  llmEnabled : Bool
  llmLoaded : Bool

/-- Go `App.stopRecording`, with the transcription goroutine inlined (the
mutual-exclusion guard makes the cycle sequential).  Oracles:
`transcribeRes` for `recognizer.Transcribe`, `ctxDone` and `genRes` for the
correction stage.  Returns the final state and the effects in order. -/
def stopRecording (st : AppState) (transcribeRes : Except Unit String)
    (ctxDone : Bool) (genRes : Except String String) :
    AppState × List Effect :=
  if ¬ st.recorder.IsRecording ∨ st.processing then (st, [])
  else
    let recognizer := st.recognizer
    let (rst, samples) := st.recorder.Stop
    if st.elapsedMs < minRecordingMs then
      ({ st with recorder := rst, processing := false },
       [.windowSpeech, .windowHide, .trayIdle])
    else
      match recognizer with
      | none =>
        ({ st with recorder := rst, processing := false },
         [.windowSpeech, .trayProcessing, .notifyProcessing, .notifyError,
          .windowHide, .trayIdle])
      | some _ =>
        if samples = [] then
          ({ st with recorder := rst, processing := false },
           [.windowSpeech, .trayProcessing, .notifyProcessing, .notifyEmpty,
            .windowHide, .trayIdle])
        else
          let pre : List Effect :=
            [.windowSpeech, .trayProcessing, .notifyProcessing, .engineInvoke]
          match transcribeRes with
          | .error _ =>
            ({ st with recorder := rst, processing := false },
             pre ++ [.notifyError, .windowHide, .trayIdle])
          | .ok originalText =>
            if originalText = "" then
              ({ st with recorder := rst, processing := false },
               pre ++ [.notifyEmpty, .windowHide, .trayIdle])
            else
              if st.llmEnabled ∧ st.llmLoaded then
                let (corrected, cerr) := CorrectText ctxDone genRes originalText
                let correctedText :=
                  if cerr = none ∧ corrected ≠ "" then corrected else ""
                ({ st with recorder := rst, processing := false },
                 pre ++ [.windowLLM, .correctInvoke,
                         .setResult originalText correctedText, .trayIdle])
              else
                ({ st with recorder := rst, processing := false },
                 pre ++ [.setResult originalText "", .trayIdle])

/-- A list of byte counts is non-decreasing. -/
def NonDecreasing (l : List Int) : Prop := l.Pairwise (· ≤ ·)

/-- A manager rooted at a concrete models directory, for concrete runs. -/
def mgr0 : Manager := { modelsDir := ["models"] }

/-- The registry entry for the small Vosk archive model, read off the
catalogue itself. -/
def voskRuSmall : ModelInfo :=
  (GetModel "vosk-ru-small").getD
    { id := "", engine := .vosk, name := "", filename := "", url := "",
      size := 0, isZip := true }

/-- The registry entry for the default Whisper model, read off the
catalogue itself. -/
def whisperTinyQ5 : ModelInfo :=
  (GetModel "whisper-tiny-q5").getD
    { id := "", engine := .whisper, name := "", filename := "", url := "",
      size := 0, isZip := false }

lemma stop_length_ge (r : Recorder) (h : r.running = true) :
    MinSamples ≤ r.Stop.2.length := by
  unfold Recorder.Stop
  simp only [h, if_true]
  by_cases hs : r.samples.length < MinSamples
  · simp only [hs, if_true, List.length_append, List.length_replicate]
    omega
  · simp only [hs, if_false]
    omega

/-- C10: calling `Start` on a recorder that is already recording returns
success and leaves the whole recorder state (open stream, accumulated
samples) unchanged, whatever the portaudio oracles would do. -/
theorem start_noop_when_recording (r : Recorder)
    (openRes : Except String Nat) (startRes : Except String Unit)
    (h : r.running = true) :
    r.Start openRes startRes = (.ok (), r) := by
  unfold Recorder.Start
  simp [h]

/-- Witness for `start_noop_when_recording` at a concrete recorder. -/
theorem start_noop_when_recording_witness :
    Recorder.Start { running := true, stream := some 1, samples := [5, -3] }
      (.error "busy") (.ok ()) =
      (.ok (), { running := true, stream := some 1, samples := [5, -3] }) :=
  start_noop_when_recording _ _ _ rfl

/-- C4: stopping a running recorder whose buffer is shorter than
`MinSamples` returns the original samples followed by trailing zeros, and
the padded length is at least `MinSamples`. -/
theorem stop_pads_short_buffer (r : Recorder) (h : r.running = true)
    (hshort : r.samples.length < MinSamples) :
    r.Stop.2 = r.samples ++ List.replicate (MinSamples - r.samples.length) 0
      ∧ MinSamples ≤ r.Stop.2.length := by
  refine ⟨?_, stop_length_ge r h⟩
  unfold Recorder.Stop
  simp [h, hshort]

/-- Witness for `stop_pads_short_buffer` at a concrete 3-sample buffer. -/
theorem stop_pads_short_buffer_witness :
    (Recorder.Stop
        { running := true, stream := some 0, samples := [1, 2, 3] }).2 =
      [1, 2, 3] ++ List.replicate (MinSamples - 3) 0
      ∧ MinSamples ≤
        (Recorder.Stop
          { running := true, stream := some 0, samples := [1, 2, 3] }).2.length :=
  stop_pads_short_buffer _ rfl (by decide)

/-- C2: a failed `Swap` (unknown model, artifact missing, or engine
initialisation failure — any `Create` error) returns the error and leaves
the published factory state (current handle and model id) unchanged, and
schedules no handle for disposal. -/
theorem swap_failure_preserves_current (f : Factory) (manager : Manager)
    (fs : Fs) (initWhisper initVosk : Path → Except String Recognizer)
    (modelID : String) (e : CreateErr)
    (h : Factory.Create manager fs initWhisper initVosk modelID = .error e) :
    f.Swap manager fs initWhisper initVosk modelID = (.error e, f, none) := by
  unfold Factory.Swap
  rw [h]

/-- Witness for `swap_failure_preserves_current`: swapping to an unknown
model id fails with `modelNotFound` and keeps the prior engine current. -/
theorem swap_failure_preserves_current_witness :
    Factory.Swap { current := some 7, modelID := "whisper-tiny-q5" } mgr0
        Fs.empty (fun _ => .error "init") (fun _ => .error "init")
        "no-such-model" =
      (.error .modelNotFound,
       { current := some 7, modelID := "whisper-tiny-q5" }, none) :=
  swap_failure_preserves_current _ _ _ _ _ _ _ rfl

/-- C6: when the model is already on disk, `Download` returns success with
a single 100%-complete / Done progress update, performs no network
transfer, leaves the filesystem unchanged, and a second call behaves
identically. -/
theorem download_idempotent_when_downloaded (m : Manager) (fs : Fs)
    (info : ModelInfo) (net : NetResult)
    (entries : List (ZipEntry × Bool))
    (h : m.IsDownloaded fs info = true) :
    m.Download fs info net entries =
      ⟨.ok (), fs,
        [{ modelID := info.id, downloaded := info.size, total := info.size,
           done := true }], false⟩
      ∧ m.Download (m.Download fs info net entries).fs info net entries =
        ⟨.ok (), fs,
          [{ modelID := info.id, downloaded := info.size, total := info.size,
             done := true }], false⟩ := by
  have h1 : m.Download fs info net entries =
      ⟨.ok (), fs,
        [{ modelID := info.id, downloaded := info.size, total := info.size,
           done := true }], false⟩ := by
    unfold Manager.Download
    simp [h]
  exact ⟨h1, by rw [h1]; exact h1⟩

/-- Witness for `download_idempotent_when_downloaded` with the default
Whisper model present as a non-empty file. -/
theorem download_idempotent_when_downloaded_witness :
    mgr0.Download
        (Fs.empty.set ["models", "whisper", "ggml-tiny-q5_1.bin"] (.file 1))
        whisperTinyQ5 .reqError [] =
      ⟨.ok (),
        Fs.empty.set ["models", "whisper", "ggml-tiny-q5_1.bin"] (.file 1),
        [{ modelID := whisperTinyQ5.id, downloaded := whisperTinyQ5.size,
           total := whisperTinyQ5.size, done := true }], false⟩
      ∧ mgr0.Download
          (mgr0.Download
            (Fs.empty.set ["models", "whisper", "ggml-tiny-q5_1.bin"] (.file 1))
            whisperTinyQ5 .reqError []).fs whisperTinyQ5 .reqError [] =
        ⟨.ok (),
          Fs.empty.set ["models", "whisper", "ggml-tiny-q5_1.bin"] (.file 1),
          [{ modelID := whisperTinyQ5.id, downloaded := whisperTinyQ5.size,
             total := whisperTinyQ5.size, done := true }], false⟩ :=
  download_idempotent_when_downloaded _ _ _ _ _ rfl

/-- C3: stopping a recording whose elapsed time is under the 500 ms
minimum hides the window and returns the session to Idle with the
`processing` guard released, and the transcription engine is never
invoked. -/
theorem short_recording_aborts_to_idle (st : AppState)
    (tr : Except Unit String) (cd : Bool) (gr : Except String String)
    (hrec : st.recorder.running = true) (hproc : st.processing = false)
    (hshort : st.elapsedMs < minRecordingMs) :
    stopRecording st tr cd gr =
      ({ st with recorder := st.recorder.Stop.1, processing := false },
       [.windowSpeech, .windowHide, .trayIdle])
      ∧ Effect.engineInvoke ∉ (stopRecording st tr cd gr).2
      ∧ (stopRecording st tr cd gr).1.processing = false
      ∧ Effect.trayIdle ∈ (stopRecording st tr cd gr).2 := by
  rcases hstop : st.recorder.Stop with ⟨rst, samples⟩
  have h1 : stopRecording st tr cd gr =
      ({ st with recorder := rst, processing := false },
       [.windowSpeech, .windowHide, .trayIdle]) := by
    unfold stopRecording
    simp [Recorder.IsRecording, hrec, hproc, hstop, hshort]
  rw [h1]
  refine ⟨rfl, by simp, rfl, by simp⟩

/-- Witness for `short_recording_aborts_to_idle`: a 100 ms recording. -/
theorem short_recording_aborts_to_idle_witness :
    stopRecording
        { recorder := { running := true, stream := some 0, samples := [1] },
          processing := false, elapsedMs := 100, recognizer := some 3,
          llmEnabled := false, llmLoaded := false } (.ok "hi") false (.ok "") =
      ({ recorder :=
           (Recorder.Stop
             { running := true, stream := some 0, samples := [1] }).1,
         processing := false, elapsedMs := 100, recognizer := some 3,
         llmEnabled := false, llmLoaded := false },
       [.windowSpeech, .windowHide, .trayIdle])
      ∧ Effect.engineInvoke ∉
        (stopRecording
          { recorder := { running := true, stream := some 0, samples := [1] },
            processing := false, elapsedMs := 100, recognizer := some 3,
            llmEnabled := false, llmLoaded := false }
          (.ok "hi") false (.ok "")).2
      ∧ (stopRecording
          { recorder := { running := true, stream := some 0, samples := [1] },
            processing := false, elapsedMs := 100, recognizer := some 3,
            llmEnabled := false, llmLoaded := false }
          (.ok "hi") false (.ok "")).1.processing = false
      ∧ Effect.trayIdle ∈
        (stopRecording
          { recorder := { running := true, stream := some 0, samples := [1] },
            processing := false, elapsedMs := 100, recognizer := some 3,
            llmEnabled := false, llmLoaded := false }
          (.ok "hi") false (.ok "")).2 :=
  short_recording_aborts_to_idle _ _ _ _ rfl rfl (by decide)

/-- C8: an empty transcription result reports the empty-result condition
(not an error), never reaches the correction stage, and the session goes
back to Idle with the guard released. -/
theorem empty_transcription_to_idle (st : AppState) (cd : Bool)
    (gr : Except String String) (r : Recognizer)
    (hrec : st.recorder.running = true) (hproc : st.processing = false)
    (hlong : minRecordingMs ≤ st.elapsedMs) (hrecg : st.recognizer = some r) :
    stopRecording st (.ok "") cd gr =
      ({ st with recorder := st.recorder.Stop.1, processing := false },
       [.windowSpeech, .trayProcessing, .notifyProcessing, .engineInvoke,
        .notifyEmpty, .windowHide, .trayIdle])
      ∧ Effect.notifyEmpty ∈ (stopRecording st (.ok "") cd gr).2
      ∧ Effect.correctInvoke ∉ (stopRecording st (.ok "") cd gr).2
      ∧ Effect.notifyError ∉ (stopRecording st (.ok "") cd gr).2
      ∧ (stopRecording st (.ok "") cd gr).1.processing = false := by
  rcases hstop : st.recorder.Stop with ⟨rst, samples⟩
  have hlen : MinSamples ≤ samples.length := by
    have h := stop_length_ge st.recorder hrec
    rw [hstop] at h
    exact h
  have hne : samples ≠ [] := by
    intro hnil
    rw [hnil] at hlen
    simp [MinSamples, SampleRate] at hlen
  have h1 : stopRecording st (.ok "") cd gr =
      ({ st with recorder := rst, processing := false },
       [.windowSpeech, .trayProcessing, .notifyProcessing, .engineInvoke,
        .notifyEmpty, .windowHide, .trayIdle]) := by
    unfold stopRecording
    simp [Recorder.IsRecording, hrec, hproc, hstop, Nat.not_lt.mpr hlong,
      hrecg, hne]
  rw [h1]
  refine ⟨rfl, by simp, by simp, by simp, rfl⟩

/-- Witness for `empty_transcription_to_idle`: a 2000 ms recording whose
engine returns the empty string. -/
theorem empty_transcription_to_idle_witness :
    stopRecording
        { recorder := { running := true, stream := some 0, samples := [1] },
          processing := false, elapsedMs := 2000, recognizer := some 3,
          llmEnabled := true, llmLoaded := true } (.ok "") false (.ok "x") =
      ({ recorder :=
           (Recorder.Stop
             { running := true, stream := some 0, samples := [1] }).1,
         processing := false, elapsedMs := 2000, recognizer := some 3,
         llmEnabled := true, llmLoaded := true },
       [.windowSpeech, .trayProcessing, .notifyProcessing, .engineInvoke,
        .notifyEmpty, .windowHide, .trayIdle])
      ∧ Effect.notifyEmpty ∈
        (stopRecording
          { recorder := { running := true, stream := some 0, samples := [1] },
            processing := false, elapsedMs := 2000, recognizer := some 3,
            llmEnabled := true, llmLoaded := true }
          (.ok "") false (.ok "x")).2
      ∧ Effect.correctInvoke ∉
        (stopRecording
          { recorder := { running := true, stream := some 0, samples := [1] },
            processing := false, elapsedMs := 2000, recognizer := some 3,
            llmEnabled := true, llmLoaded := true }
          (.ok "") false (.ok "x")).2
      ∧ Effect.notifyError ∉
        (stopRecording
          { recorder := { running := true, stream := some 0, samples := [1] },
            processing := false, elapsedMs := 2000, recognizer := some 3,
            llmEnabled := true, llmLoaded := true }
          (.ok "") false (.ok "x")).2
      ∧ (stopRecording
          { recorder := { running := true, stream := some 0, samples := [1] },
            processing := false, elapsedMs := 2000, recognizer := some 3,
            llmEnabled := true, llmLoaded := true }
          (.ok "") false (.ok "x")).1.processing = false :=
  empty_transcription_to_idle _ _ _ 3 rfl rfl (by decide) rfl

/-- C5: when the correction deadline is already exceeded or generation
fails, `CorrectText` returns the original text, and the session publishes
the uncorrected transcription as the result with no pipeline error. -/
theorem correction_failure_falls_back (st : AppState) (cd : Bool)
    (gr : Except String String) (t : String) (r : Recognizer)
    (hrec : st.recorder.running = true) (hproc : st.processing = false)
    (hlong : minRecordingMs ≤ st.elapsedMs) (hrecg : st.recognizer = some r)
    (ht : trimSpace t ≠ "") (hllm : st.llmEnabled = true)
    (hload : st.llmLoaded = true)
    (hfail : cd = true ∨ ∃ e, gr = Except.error e) :
    (CorrectText cd gr t).1 = t
      ∧ stopRecording st (.ok t) cd gr =
        ({ st with recorder := st.recorder.Stop.1, processing := false },
         [.windowSpeech, .trayProcessing, .notifyProcessing, .engineInvoke,
          .windowLLM, .correctInvoke, .setResult t "", .trayIdle])
      ∧ Effect.notifyError ∉ (stopRecording st (.ok t) cd gr).2
      ∧ (stopRecording st (.ok t) cd gr).1.processing = false := by
  have hct : ∃ s, CorrectText cd gr t = (t, some s) := by
    by_cases hcd : cd = true
    · exact ⟨"context deadline exceeded", by simp [CorrectText, ht, hcd]⟩
    · rcases hfail with hcd1 | ⟨e, hge⟩
      · exact absurd hcd1 hcd
      · exact ⟨"llm generate: " ++ e, by simp [CorrectText, ht, hcd, hge]⟩
  obtain ⟨s, hs⟩ := hct
  have htne : t ≠ "" := by
    intro h0
    rw [h0] at ht
    exact ht rfl
  rcases hstop : st.recorder.Stop with ⟨rst, samples⟩
  have hlen : MinSamples ≤ samples.length := by
    have h := stop_length_ge st.recorder hrec
    rw [hstop] at h
    exact h
  have hne : samples ≠ [] := by
    intro hnil
    rw [hnil] at hlen
    simp [MinSamples, SampleRate] at hlen
  have h1 : stopRecording st (.ok t) cd gr =
      ({ st with recorder := rst, processing := false },
       [.windowSpeech, .trayProcessing, .notifyProcessing, .engineInvoke,
        .windowLLM, .correctInvoke, .setResult t "", .trayIdle]) := by
    unfold stopRecording
    simp [Recorder.IsRecording, hrec, hproc, hstop, Nat.not_lt.mpr hlong,
      hrecg, hne, htne, hllm, hload, hs]
  refine ⟨by rw [hs], by rw [h1], ?_, ?_⟩
  · rw [h1]
    simp
  · rw [h1]

/-- Witness for `correction_failure_falls_back`: the engine returned
"helo wrld" and the correction deadline was already exceeded. -/
theorem correction_failure_falls_back_witness :
    (CorrectText true (.ok "ok") "helo wrld").1 = "helo wrld"
      ∧ stopRecording
          { recorder := { running := true, stream := some 0, samples := [1] },
            processing := false, elapsedMs := 2000, recognizer := some 3,
            llmEnabled := true, llmLoaded := true }
          (.ok "helo wrld") true (.ok "ok") =
        ({ recorder :=
             (Recorder.Stop
               { running := true, stream := some 0, samples := [1] }).1,
           processing := false, elapsedMs := 2000, recognizer := some 3,
           llmEnabled := true, llmLoaded := true },
         [.windowSpeech, .trayProcessing, .notifyProcessing, .engineInvoke,
          .windowLLM, .correctInvoke, .setResult "helo wrld" "", .trayIdle])
      ∧ Effect.notifyError ∉
        (stopRecording
          { recorder := { running := true, stream := some 0, samples := [1] },
            processing := false, elapsedMs := 2000, recognizer := some 3,
            llmEnabled := true, llmLoaded := true }
          (.ok "helo wrld") true (.ok "ok")).2
      ∧ (stopRecording
          { recorder := { running := true, stream := some 0, samples := [1] },
            processing := false, elapsedMs := 2000, recognizer := some 3,
            llmEnabled := true, llmLoaded := true }
          (.ok "helo wrld") true (.ok "ok")).1.processing = false :=
  correction_failure_falls_back _ _ _ _ 3 rfl rfl (by decide) rfl
    (by decide) rfl rfl (Or.inl rfl)

/-- C7: across every observable point of a swap, the published handle is
never none, is always the old or the new recognizer, is always fully
constructed, and has never been disposed at that point; and a transcription
serialised (by the handle mutex) before the background close completes
normally. -/
theorem swap_current_always_valid (old new : Recognizer) (hne : new ≠ old) :
    (∀ s ∈ swapStates old new,
      ∃ h, s.current = some h ∧ (h = old ∨ h = new)
        ∧ h ∈ s.constructed ∧ h ∉ s.closed)
      ∧ runHandleOps [.transcribe, .close] false = [some ()] := by
  constructor
  · intro s hs
    simp only [swapStates, List.mem_cons, List.mem_singleton,
      List.not_mem_nil, or_false] at hs
    rcases hs with h | h | h | h
    · exact h ▸ ⟨old, rfl, Or.inl rfl, by simp, by simp⟩
    · exact h ▸ ⟨old, rfl, Or.inl rfl, by simp, by simp⟩
    · exact h ▸ ⟨new, rfl, Or.inr rfl, by simp, by simp⟩
    · exact h ▸ ⟨new, rfl, Or.inr rfl, by simp, by simp [hne]⟩
  · rfl

/-- Witness for `swap_current_always_valid` with handles 0 and 1. -/
theorem swap_current_always_valid_witness :
    (∀ s ∈ swapStates 0 1,
      ∃ h, s.current = some h ∧ (h = 0 ∨ h = 1)
        ∧ h ∈ s.constructed ∧ h ∉ s.closed)
      ∧ runHandleOps [.transcribe, .close] false = [some ()] :=
  swap_current_always_valid 0 1 (by decide)

/-- C1 (refuting input): downloading the small Vosk archive model succeeds
over the network, extraction creates the final target directory and then
fails on a later entry; `Download` returns an extraction error, yet
`IsDownloaded` reports the half-populated directory as a downloaded
model. -/
theorem extraction_failure_leaves_visible_artifact :
    GetModel "vosk-ru-small" = some voskRuSmall
      ∧ (mgr0.Download Fs.empty voskRuSmall
          (.ok { contentLength := 1000, chunks := [1000], ending := .eof })
          [({ name := ["vosk-model-small-ru-0.22"], isDir := true,
              size := 0 }, false),
           ({ name := ["vosk-model-small-ru-0.22", "am", "final.mdl"],
              isDir := false, size := 10 }, true)]).result =
        .error .unzipFailed
      ∧ mgr0.IsDownloaded
          (mgr0.Download Fs.empty voskRuSmall
            (.ok { contentLength := 1000, chunks := [1000], ending := .eof })
            [({ name := ["vosk-model-small-ru-0.22"], isDir := true,
                size := 0 }, false),
             ({ name := ["vosk-model-small-ru-0.22", "am", "final.mdl"],
                isDir := false, size := 10 }, true)]).fs voskRuSmall =
        true :=
  ⟨rfl, rfl, rfl⟩

lemma chunkProgress_downloaded_bounds (id : String) (total : Int) :
    ∀ (chunks : List Nat) (acc : Int),
      ∀ x ∈ (chunkProgress id total acc chunks).map Progress.downloaded,
        acc ≤ x ∧ x ≤ acc + (chunks.sum : Int) := by
  intro chunks
  induction chunks with
  | nil =>
    intro acc x hx
    simp [chunkProgress] at hx
  | cons n rest ih =>
    intro acc x hx
    rw [List.sum_cons, Nat.cast_add]
    by_cases hn : n = 0
    · subst hn
      simp only [chunkProgress, if_pos rfl] at hx
      have h := ih acc x hx
      omega
    · simp only [chunkProgress, if_neg hn, List.map_cons, List.mem_cons] at hx
      rcases hx with hx | hx
      · subst hx
        omega
      · have h := ih (acc + (n : Int)) x hx
        omega

lemma chunkProgress_downloaded_pairwise (id : String) (total : Int) :
    ∀ (chunks : List Nat) (acc : Int),
      ((chunkProgress id total acc chunks).map
        Progress.downloaded).Pairwise (· ≤ ·) := by
  intro chunks
  induction chunks with
  | nil =>
    intro acc
    simp [chunkProgress]
  | cons n rest ih =>
    intro acc
    by_cases hn : n = 0
    · subst hn
      simp only [chunkProgress, if_pos rfl]
      exact ih acc
    · simp only [chunkProgress, if_neg hn, List.map_cons]
      rw [List.pairwise_cons]
      refine ⟨fun y hy => ?_, ih (acc + (n : Int))⟩
      exact (chunkProgress_downloaded_bounds id total rest (acc + (n : Int))
        y hy).1

lemma chunkProgress_final_pairwise (id : String) (total : Int)
    (chunks : List Nat) (h : (chunks.sum : Int) ≤ total) :
    ((chunkProgress id total 0 chunks ++
        [({ modelID := id, downloaded := total, total := total,
            done := true } : Progress)]).map
      Progress.downloaded).Pairwise (· ≤ ·) := by
  rw [List.map_append, List.pairwise_append]
  refine ⟨chunkProgress_downloaded_pairwise id total chunks 0, by simp, ?_⟩
  intro x hx y hy
  simp only [List.map_cons, List.map_nil, List.mem_singleton] at hy
  have hb := (chunkProgress_downloaded_bounds id total chunks 0 x hx).2
  omega

lemma download_progress_pairwise (m : Manager) (fs : Fs) (info : ModelInfo)
    (net : NetResult) (entries : List (ZipEntry × Bool))
    (htot : ∀ body : HttpBody, net = .ok body → body.ending = .eof →
      (body.chunks.sum : Int) ≤ totalOf body.contentLength info.size) :
    ((m.Download fs info net entries).progress.map
      Progress.downloaded).Pairwise (· ≤ ·) := by
  unfold Manager.Download
  by_cases hdl : m.IsDownloaded fs info
  · simp [hdl]
  · simp only [hdl, Bool.false_eq_true, if_false]
    by_cases hz : info.isZip
    · simp only [hz, if_true]
      unfold Manager.downloadAndUnzip
      cases net with
      | reqError => simp
      | httpError s => simp
      | ok body =>
        obtain ⟨cl, chs, ending⟩ := body
        have hsum := htot ⟨cl, chs, ending⟩ rfl
        cases ending with
        | readError =>
          simpa using chunkProgress_downloaded_pairwise info.id
            (totalOf cl info.size) chs 0
        | cancelled =>
          simpa using chunkProgress_downloaded_pairwise info.id
            (totalOf cl info.size) chs 0
        | eof =>
          rcases hu : unzipRun (m.GetModelPath info).dropLast fs entries
            with ⟨ok, fs1⟩
          cases ok with
          | false =>
            simp only [hu]
            simpa using chunkProgress_downloaded_pairwise info.id
              (totalOf cl info.size) chs 0
          | true =>
            simp only [hu]
            simpa using chunkProgress_final_pairwise info.id
              (totalOf cl info.size) chs (hsum rfl)
    · simp only [hz, Bool.false_eq_true, if_false]
      unfold Manager.downloadFile
      cases net with
      | reqError => simp
      | httpError s => simp
      | ok body =>
        obtain ⟨cl, chs, ending⟩ := body
        have hsum := htot ⟨cl, chs, ending⟩ rfl
        cases ending with
        | readError =>
          simpa using chunkProgress_downloaded_pairwise info.id
            (totalOf cl info.size) chs 0
        | cancelled =>
          simpa using chunkProgress_downloaded_pairwise info.id
            (totalOf cl info.size) chs 0
        | eof =>
          simpa using chunkProgress_final_pairwise info.id
            (totalOf cl info.size) chs (hsum rfl)

/-- C9 (amended): the bytes-downloaded values of any subsequence of the
progress updates emitted by one download are monotonically non-decreasing,
provided the reported total (ContentLength when positive, else the
descriptor size) is at least the number of body bytes actually received —
the condition the final completion update needs. -/
theorem download_progress_monotone (m : Manager) (fs : Fs)
    (info : ModelInfo) (net : NetResult) (entries : List (ZipEntry × Bool))
    (delivered : List Progress)
    (htot : ∀ body : HttpBody, net = .ok body → body.ending = .eof →
      (body.chunks.sum : Int) ≤ totalOf body.contentLength info.size)
    (hsub : delivered.Sublist (m.Download fs info net entries).progress) :
    NonDecreasing (delivered.map Progress.downloaded) :=
  List.Pairwise.sublist (hsub.map Progress.downloaded)
    (download_progress_pairwise m fs info net entries htot)

/-- C9 (refuting input for the claim as stated): a transfer whose body
delivers more bytes (10) than the advertised ContentLength (5) emits the
streaming update 10 followed by the final completion update 5 — the
delivered sequence decreases at the final update. -/
theorem final_progress_update_not_monotone :
    ¬ NonDecreasing
      ((mgr0.Download Fs.empty whisperTinyQ5
          (.ok { contentLength := 5, chunks := [10], ending := .eof })
          []).progress.map Progress.downloaded) := by
  intro h
  have he : (mgr0.Download Fs.empty whisperTinyQ5
      (.ok { contentLength := 5, chunks := [10], ending := .eof })
      []).progress.map Progress.downloaded = [10, 5] := rfl
  rw [he] at h
  rcases List.pairwise_cons.mp h with ⟨h1, _⟩
  have := h1 5 (by simp)
  omega

/-- Witness for `download_progress_monotone`: a well-formed transfer of
4 + 6 bytes against ContentLength 10 yields the non-decreasing delivered
sequence 4, 10, 10. -/
theorem download_progress_monotone_witness :
    NonDecreasing
      ((mgr0.Download Fs.empty whisperTinyQ5
          (.ok { contentLength := 10, chunks := [4, 6], ending := .eof })
          []).progress.map Progress.downloaded) :=
  download_progress_monotone mgr0 Fs.empty whisperTinyQ5
    (.ok { contentLength := 10, chunks := [4, 6], ending := .eof }) []
    (mgr0.Download Fs.empty whisperTinyQ5
      (.ok { contentLength := 10, chunks := [4, 6], ending := .eof })
      []).progress
    (fun body hb _ => by cases hb; decide)
    (List.Sublist.refl _)

end Shofar
